import Mathlib

/-!
Verification development for the realtime chat synchronization and
ephemeral typing-presence component of the Movilrecetas app.

The definitions below are a shallow embedding of
`src/domain/useCases/chat/ChatUseCase.ts` and
`src/presentation/hooks/useChat.ts`.  Time is modelled in milliseconds as
`Nat` (the code uses `Date.now()`), the JS `Map<string, number>` used by
the typing-presence aggregator is modelled as an association list with
unique keys kept in insertion order (the behaviour of a JS `Map`), and
asynchronous backend interaction (supabase responses, thrown errors) is
modelled by passing the backend response as an explicit argument.
-/

set_option autoImplicit false

/-- Inactivity threshold of the typing-presence sweep:
`if (ahora - timestamp > 3000)` in `limpiarInactivos`. -/
def umbralInactividadMs : Nat := 3000

/-- Period of the sweep timer: `setInterval(limpiarInactivos, 1000)`. -/
def periodoLimpiezaMs : Nat := 1000

/-- The JS `Map<string, number>` `usuariosEscritura`: userId -> timestamp of
the last typing event, unique keys in insertion order. -/
abbrev MapaEscritura := List (String × Nat)

/-- Embedding of `usuariosEscritura.set(userId, timestamp)`: replaces the value of an
existing key in place (JS `Map` keeps the original insertion position) or
appends a new key at the end. -/
def mapSet (u : String) (t : Nat) : MapaEscritura → MapaEscritura
  | [] => [(u, t)]
  | (v, s) :: rest => if v = u then (u, t) :: rest else (v, s) :: mapSet u t rest

/-- The surviving entries after the sweep body of `limpiarInactivos` runs at
time `ahora`: every entry with `ahora - timestamp > 3000` is deleted. -/
def limpiarFiltrado (ahora : Nat) (m : MapaEscritura) : MapaEscritura :=
  m.filter (fun p => !decide (umbralInactividadMs < ahora - p.2))

/-- The `cambio` flag of `limpiarInactivos`: true iff at least one entry was
deleted by the sweep. -/
def huboCambio (ahora : Nat) (m : MapaEscritura) : Bool :=
  m.any (fun p => decide (umbralInactividadMs < ahora - p.2))

/-- State of one `suscribirseAEscritura` subscription: the typing map plus
the time of the last sweep (0 before any sweep has run). -/
structure EstadoAgregador where
  mapa : MapaEscritura
  ultimoSweep : Nat
deriving Repr, DecidableEq

/-- Initial state of a fresh subscription: `new Map()`. -/
def estadoInicial : EstadoAgregador := ⟨[], 0⟩

/-- An event processed by the subscription: either an INSERT on
`indicadores_escritura` delivered to the channel handler, or one tick of
the `limpiarInterval` sweep.  Each carries the value `Date.now()` reads at
that moment. -/
inductive EventoEscritura where
  | insert (usuarioId : String) (t : Nat)
  | sweep (t : Nat)
deriving Repr, DecidableEq

/-- The `Date.now()` reading of an event. -/
def tiempoDe : EventoEscritura → Nat
  | .insert _ t => t
  | .sweep t => t

/-- Embedding of `limpiarInactivos` at time `ahora`: deletes every entry older than the
threshold and invokes the callback (with the remaining key set) iff some
entry was deleted. -/
def limpiarInactivos (ahora : Nat) (st : EstadoAgregador) :
    EstadoAgregador × Option (List String) :=
  let m := limpiarFiltrado ahora st.mapa
  (⟨m, ahora⟩, if huboCambio ahora st.mapa then some (m.map Prod.fst) else none)

/-- The INSERT handler of `suscribirseAEscritura`: sets
`usuariosEscritura.set(userId, timestamp)` and unconditionally invokes
`callback(Array.from(usuariosEscritura.keys()))`. -/
def manejadorInsercionEscritura (u : String) (t : Nat) (st : EstadoAgregador) :
    EstadoAgregador × Option (List String) :=
  let m := mapSet u t st.mapa
  (⟨m, st.ultimoSweep⟩, some (m.map Prod.fst))

/-- One step of the subscription: dispatches the event to the INSERT handler
or to the sweep, returning the new state and the callback invocation (if
any) with its argument. -/
def paso (st : EstadoAgregador) : EventoEscritura → EstadoAgregador × Option (List String)
  | .insert u t => manejadorInsercionEscritura u t st
  | .sweep t => limpiarInactivos t st

/-- The state after processing a whole event trace from the initial state. -/
def estadoFinal (tr : List EventoEscritura) : EstadoAgregador :=
  tr.foldl (fun st e => (paso st e).1) estadoInicial

/-- The timestamp of the most recent insert-event for user `u` in a trace
(`none` if `u` never typed). -/
def ultimoEvento (u : String) (tr : List EventoEscritura) : Option Nat :=
  tr.foldl
    (fun acc e =>
      match e with
      | .insert v t => if v = u then some t else acc
      | .sweep _ => acc)
    none

/-- A trace is well formed when the `Date.now()` readings are monotone:
every event observes a time at least that of every earlier event. -/
def BienFormada (tr : List EventoEscritura) : Prop :=
  tr.Pairwise (fun a b => tiempoDe a ≤ tiempoDe b)

instance : DecidablePred BienFormada := fun tr => by
  unfold BienFormada; infer_instance

/-- The teardown closure returned by `suscribirseAEscritura`: removes the
channel, clears the interval and clears the map
(`usuariosEscritura.clear()`).  The last sweep time is local bookkeeping of
the model and is left untouched. -/
def desuscribirEscritura (st : EstadoAgregador) : EstadoAgregador :=
  ⟨[], st.ultimoSweep⟩

/-! ## Message data model and relay (`ChatUseCase.suscribirseAMensajes`,
`obtenerMensajes`, `enviarMensaje`, `enviarEventoEscritura`) -/

/-- The denormalized author join `usuarios!fk_usuario(email, rol)`. -/
structure AutorInfo where
  email : String
  rol : String
deriving Repr, DecidableEq

/-- The placeholder author used on every fallback path:
`{ email: "Desconocido", rol: "usuario" }`. -/
def autorDesconocido : AutorInfo := ⟨"Desconocido", "usuario"⟩

/-- A `Mensaje` as handed to the UI: the row fields plus the (possibly
absent) denormalized author. -/
structure Mensaje where
  id : String
  contenido : String
  usuario_id : String
  created_at : Nat
  usuario : Option AutorInfo
deriving Repr, DecidableEq

/-- A row of the `mensajes` table as returned by the select with the
author join (`usuarios` is null when the join matches nothing). -/
structure FilaMensaje where
  id : String
  contenido : String
  usuario_id : String
  created_at : Nat
  usuarios : Option AutorInfo
deriving Repr, DecidableEq

/-- The per-row formatting of `obtenerMensajes`:
`{ ...msg, usuario: msg.usuarios }`. -/
def formatearMensaje (f : FilaMensaje) : Mensaje :=
  ⟨f.id, f.contenido, f.usuario_id, f.created_at, f.usuarios⟩

/-- Outcome of the `supabase.from("mensajes").select(...)` query:
either the promise rejected (`lanzada`), or it resolved to a
`{ data, error }` pair. -/
inductive RespuestaConsulta where
  | lanzada (e : String)
  | respuesta (data : Option (List FilaMensaje)) (error : Option String)
deriving Repr, DecidableEq

/-- The query built by `obtenerMensajes`: select on `mensajes` ordered by
`created_at` descending (newest first), limited to `limite` rows. -/
structure ConsultaRecientes where
  tabla : String
  ordenAscendente : Bool
  limite : Nat
deriving Repr, DecidableEq

/-- Shape of the query: `obtenerMensajes` orders by `created_at` with `ascending: false` and
applies `.limit(limite)` (default 50). -/
def consultaObtenerMensajes (limite : Nat) : ConsultaRecientes :=
  ⟨"mensajes", false, limite⟩

/-- Embedding of `obtenerMensajes`, applied to the backend response: a resolved error is
thrown and caught (returning `[]`), a rejection is caught (returning `[]`),
otherwise the rows are formatted and reversed (`data || []` guards a null
`data`). -/
def obtenerMensajes (resp : RespuestaConsulta) : List Mensaje :=
  match resp with
  | .lanzada _ => []
  | .respuesta _ (some _) => []
  | .respuesta d none => ((d.getD []).map formatearMensaje).reverse

/-- The authenticated user as returned by `supabase.auth.getUser()`. -/
structure UsuarioAuth where
  id : String
deriving Repr, DecidableEq

/-- A row inserted into `indicadores_escritura`. -/
structure InsercionEscritura where
  usuario_id : String
deriving Repr, DecidableEq

/-- A row inserted into `mensajes`. -/
structure InsercionMensaje where
  contenido : String
  usuario_id : String
deriving Repr, DecidableEq

/-- Embedding of `enviarEventoEscritura(escribiendo)`: with no session it only logs and
returns (`Promise<void>` — there is no error component in the return type);
with a session and `escribiendo` true it inserts `{ usuario_id }` into
`indicadores_escritura` (an insert error is only logged); with
`escribiendo` false the body is empty.  The result is the list of rows
actually inserted. -/
def enviarEventoEscritura (user : Option UsuarioAuth) (escribiendo : Bool)
    (errorInsercion : Option String) : List InsercionEscritura :=
  match user with
  | none => []
  | some u =>
      if escribiendo then
        match errorInsercion with
        | some _ => []
        | none => [⟨u.id⟩]
      else []

/-- The `{ success, error? }` result of `enviarMensaje` and
`eliminarMensaje`. -/
structure ResultadoEnvio where
  success : Bool
  error : Option String
deriving Repr, DecidableEq

/-- The error message returned when `supabase.auth.getUser()` yields no
user: `"Usuario no autenticado"` (the `Unauthenticated` value of the spec taxonomy). -/
def errorNoAutenticado : String := "Usuario no autenticado"

/-- Embedding of `ChatUseCase.enviarMensaje(contenido)`: returns the `Unauthenticated`
failure when there is no session; otherwise calls
`enviarEventoEscritura(false)` (which performs no insert), inserts
`{ contenido, usuario_id }` into `mensajes`, and returns
`{ success: true }` — an insert error is thrown, caught, and returned as
`{ success: false, error }`.  The second component is the list of rows
inserted into `mensajes`. -/
def enviarMensaje (user : Option UsuarioAuth) (errorInsercion : Option String)
    (contenido : String) : ResultadoEnvio × List InsercionMensaje :=
  match user with
  | none => (⟨false, some errorNoAutenticado⟩, [])
  | some u =>
      match errorInsercion with
      | some e => (⟨false, some e⟩, [])
      | none => (⟨true, none⟩, [⟨contenido, u.id⟩])

/-- The raw INSERT payload (`payload.new`) delivered to the
`suscribirseAMensajes` handler: the bare row, author join NOT included. -/
structure PayloadMensaje where
  id : String
  contenido : String
  usuario_id : String
  created_at : Nat
deriving Repr, DecidableEq

/-- The fallback `Mensaje` built from the raw payload when enrichment
fails, with the placeholder author. -/
def mensajeFallback (p : PayloadMensaje) : Mensaje :=
  ⟨p.id, p.contenido, p.usuario_id, p.created_at, some autorDesconocido⟩

/-- Outcome of the enrichment fetch (`select ... .eq("id", ...).single()`):
either the promise rejected, or it resolved to `{ data, error }`. -/
inductive RespuestaUnica where
  | lanzada (e : String)
  | respuesta (data : Option FilaMensaje) (error : Option String)
deriving Repr, DecidableEq

/-- The INSERT handler of `suscribirseAMensajes`, applied to the enrichment
fetch outcome: on a resolved error or a rejection it delivers the fallback
message; on data it delivers the enriched message
(`data.usuarios || autorDesconocido`); the result
is the argument of the `callback` invocation (`none` only on the
`data`-absent-without-error branch, which `.single()` excludes). -/
def manejadorInsercionMensaje (consulta : RespuestaUnica) (p : PayloadMensaje) :
    Option Mensaje :=
  match consulta with
  | .lanzada _ => some (mensajeFallback p)
  | .respuesta _ (some _) => some (mensajeFallback p)
  | .respuesta (some d) none =>
      some ⟨d.id, d.contenido, d.usuario_id, d.created_at,
            some (d.usuarios.getD autorDesconocido)⟩
  | .respuesta none none => none

/-! ## Hook level (`useChat.ts`) -/

/-- The error message of the blank-content guard of the hook:
`"El mensaje está vacío"` (the `EmptyContent` value of the spec taxonomy). -/
def errorContenidoVacio : String := "El mensaje está vacío"

/-- The JS `String.prototype.trim()` used by the guard of the hook: drops
whitespace from both ends of the string. -/
def recortar (s : String) : String :=
  ⟨((s.data.dropWhile Char.isWhitespace).reverse.dropWhile Char.isWhitespace).reverse⟩

/-- Embedding of `useChat.enviarMensaje(contenido)`: returns the `EmptyContent` failure
without calling the use case when `contenido.trim()` is empty (the empty
string is the only falsy string), and otherwise delegates to
`ChatUseCase.enviarMensaje`. -/
def enviarMensajeHook (user : Option UsuarioAuth) (errorInsercion : Option String)
    (contenido : String) : ResultadoEnvio × List InsercionMensaje :=
  if recortar contenido = "" then (⟨false, some errorContenidoVacio⟩, [])
  else enviarMensaje user errorInsercion contenido

/-- The message-subscription callback of `useChat`: appends the pushed
message to the UI list unless a message with the same id is already
present. -/
def agregarMensaje (prev : List Mensaje) (nuevo : Mensaje) : List Mensaje :=
  if prev.any (fun m => m.id == nuevo.id) then prev else prev ++ [nuevo]

/-! ## Lemmas about the typing-presence aggregator -/

/-- Key set of the map after a `set`: unchanged when the key was already
present, the key appended at the end otherwise. -/
lemma keys_mapSet (u : String) (t : Nat) (m : MapaEscritura) :
    (mapSet u t m).map Prod.fst =
      if u ∈ m.map Prod.fst then m.map Prod.fst else m.map Prod.fst ++ [u] := by
  induction m with
  | nil => simp [mapSet]
  | cons q rest ih =>
      obtain ⟨v, s⟩ := q
      by_cases hv : v = u
      · subst hv
        simp [mapSet]
      · simp only [mapSet, if_neg hv, List.map_cons]
        rw [ih]
        by_cases hm : u ∈ rest.map Prod.fst
        · simp [hm, hv, Ne.symm hv]
        · simp [hm, hv, Ne.symm hv]

/-- A `set` preserves key uniqueness. -/
lemma nodup_mapSet {m : MapaEscritura} (hm : (m.map Prod.fst).Nodup)
    (u : String) (t : Nat) : ((mapSet u t m).map Prod.fst).Nodup := by
  rw [keys_mapSet]
  by_cases h : u ∈ m.map Prod.fst
  · simpa [h] using hm
  · simp only [h, if_false]
    refine List.Nodup.append hm (List.nodup_singleton u) ?_
    intro x hx hxu
    rw [List.mem_singleton] at hxu
    exact h (hxu ▸ hx)

/-- Every entry of the map after a `set` is either the entry just set or an
untouched entry with a different key (given unique keys). -/
lemma mem_mapSet_nodup {m : MapaEscritura} (hm : (m.map Prod.fst).Nodup)
    {u : String} {t : Nat} {p : String × Nat} (h : p ∈ mapSet u t m) :
    p = (u, t) ∨ (p ∈ m ∧ p.1 ≠ u) := by
  induction m with
  | nil =>
      simp [mapSet] at h
      exact Or.inl h
  | cons q rest ih =>
      obtain ⟨v, s⟩ := q
      simp only [List.map_cons, List.nodup_cons] at hm
      by_cases hv : v = u
      · rw [show mapSet u t ((v, s) :: rest) = (u, t) :: rest by simp [mapSet, hv]] at h
        rcases List.mem_cons.mp h with h1 | h1
        · exact Or.inl h1
        · refine Or.inr ⟨List.mem_cons_of_mem _ h1, fun hpu => ?_⟩
          apply hm.1
          rw [hv, ← hpu]
          exact List.mem_map_of_mem Prod.fst h1
      · rw [show mapSet u t ((v, s) :: rest) = (v, s) :: mapSet u t rest by
            simp [mapSet, hv]] at h
        rcases List.mem_cons.mp h with h1 | h1
        · exact Or.inr ⟨by simp [h1], by simp [h1, hv]⟩
        · rcases ih hm.2 h1 with h2 | h2
          · exact Or.inl h2
          · exact Or.inr ⟨List.mem_cons_of_mem _ h2.1, h2.2⟩

/-- Unfolding `estadoFinal` over a trailing event. -/
lemma estadoFinal_append (tr : List EventoEscritura) (e : EventoEscritura) :
    estadoFinal (tr ++ [e]) = (paso (estadoFinal tr) e).1 := by
  simp [estadoFinal, List.foldl_append]

/-- A trailing insert-event overrides the most recent timestamp of its own
user and nobody else. -/
lemma ultimoEvento_append_insert (u v : String) (t : Nat) (tr : List EventoEscritura) :
    ultimoEvento u (tr ++ [.insert v t]) =
      if v = u then some t else ultimoEvento u tr := by
  simp [ultimoEvento, List.foldl_append]

/-- A trailing sweep leaves every most-recent timestamp unchanged. -/
lemma ultimoEvento_append_sweep (u : String) (t : Nat) (tr : List EventoEscritura) :
    ultimoEvento u (tr ++ [.sweep t]) = ultimoEvento u tr := by
  simp [ultimoEvento, List.foldl_append]

/-- Whenever a step invokes the callback, its argument is exactly the key
set of the post-step map. -/
lemma salida_es_claves (st : EstadoAgregador) (e : EventoEscritura)
    (out : List String) (h : (paso st e).2 = some out) :
    out = (paso st e).1.mapa.map Prod.fst := by
  cases e with
  | insert u t =>
      simpa [paso, manejadorInsercionEscritura] using h.symm
  | sweep t =>
      by_cases hc : huboCambio t st.mapa
      · simpa [paso, limpiarInactivos, hc] using h.symm
      · simp [paso, limpiarInactivos, hc] at h

/-- The `cambio` flag is raised exactly when some entry is over age. -/
lemma huboCambio_iff (t : Nat) (m : MapaEscritura) :
    huboCambio t m = true ↔ ∃ p ∈ m, umbralInactividadMs < t - p.2 := by
  simp [huboCambio, List.any_eq_true]

/-- Membership in the post-sweep map: survived iff present before and not
over age. -/
lemma mem_limpiarFiltrado (t : Nat) (m : MapaEscritura) (p : String × Nat) :
    p ∈ limpiarFiltrado t m ↔ p ∈ m ∧ t - p.2 ≤ umbralInactividadMs := by
  simp [limpiarFiltrado, List.mem_filter, Nat.not_lt]

/-- Reachability invariant of `suscribirseAEscritura`: after any well-formed
trace, every map entry carries the timestamp of the most recent
insert-event of its user, is within the inactivity threshold of the last sweep, and the
keys are unique; moreover the recorded last-sweep time is either the
initial 0 or the time of a sweep of the trace. -/
lemma invarianteAgregador (tr : List EventoEscritura) (hbf : BienFormada tr) :
    (∀ p ∈ (estadoFinal tr).mapa,
        ultimoEvento p.1 tr = some p.2 ∧
        (estadoFinal tr).ultimoSweep - p.2 ≤ umbralInactividadMs) ∧
    ((estadoFinal tr).ultimoSweep = 0 ∨
        EventoEscritura.sweep (estadoFinal tr).ultimoSweep ∈ tr) ∧
    ((estadoFinal tr).mapa.map Prod.fst).Nodup := by
  induction tr using List.reverseRecOn with
  | nil =>
      refine ⟨?_, Or.inl rfl, ?_⟩
      · intro p hp
        simp [estadoFinal, estadoInicial] at hp
      · simp [estadoFinal, estadoInicial]
  | append_singleton tr e ih =>
      rw [BienFormada, List.pairwise_append] at hbf
      obtain ⟨hbf1, _, hle⟩ := hbf
      obtain ⟨ih1, ih2, ih3⟩ := ih hbf1
      have hle2 : ∀ a ∈ tr, tiempoDe a ≤ tiempoDe e := fun a ha =>
        hle a ha e (List.mem_singleton_self e)
      rw [estadoFinal_append]
      cases e with
      | insert u t =>
          have hpaso : (paso (estadoFinal tr) (.insert u t)).1 =
              ⟨mapSet u t (estadoFinal tr).mapa, (estadoFinal tr).ultimoSweep⟩ := rfl
          rw [hpaso]
          refine ⟨?_, ?_, nodup_mapSet ih3 u t⟩
          · intro p hp
            rcases mem_mapSet_nodup ih3 hp with h1 | ⟨h1, h2⟩
            · subst h1
              constructor
              · rw [ultimoEvento_append_insert, if_pos rfl]
              · rcases ih2 with h0 | hsw
                · simp [h0]
                · have := hle2 _ hsw
                  simp only [tiempoDe] at this
                  simp [Nat.sub_eq_zero_of_le this]
            · constructor
              · rw [ultimoEvento_append_insert, if_neg (fun hh => h2 hh.symm)]
                exact (ih1 p h1).1
              · exact (ih1 p h1).2
          · rcases ih2 with h0 | hsw
            · exact Or.inl h0
            · exact Or.inr (List.mem_append_left _ hsw)
      | sweep t =>
          have hpaso : (paso (estadoFinal tr) (.sweep t)).1 =
              ⟨limpiarFiltrado t (estadoFinal tr).mapa, t⟩ := rfl
          rw [hpaso]
          refine ⟨?_, Or.inr (List.mem_append_right _ (List.mem_singleton_self _)), ?_⟩
          · intro p hp
            rw [mem_limpiarFiltrado] at hp
            exact ⟨by rw [ultimoEvento_append_sweep]; exact (ih1 p hp.1).1, hp.2⟩
          · exact ih3.sublist (List.Sublist.map Prod.fst (List.filter_sublist _))

/-! ## Claims about the typing-presence aggregator -/

/-- C1: over any well-formed trace of typing-insert-events and sweeps, the
presence set handed to the callback never contains a user whose most recent
event is, at the time of the last sweep, older than the 3-second inactivity
threshold; the sweep (scheduled with the fixed 1-second period
`periodoLimpiezaMs`) evicts exactly the entries whose age exceeds the
threshold and invokes the callback iff at least one eviction occurred. -/
theorem C1_invariante_presencia (tr : List EventoEscritura) (e : EventoEscritura)
    (out : List String) (hbf : BienFormada (tr ++ [e]))
    (hout : (paso (estadoFinal tr) e).2 = some out) :
    (∀ u ∈ out, ∃ ts, ultimoEvento u (tr ++ [e]) = some ts ∧
        (estadoFinal (tr ++ [e])).ultimoSweep - ts ≤ umbralInactividadMs) ∧
    (∀ (t : Nat) (m : MapaEscritura) (p : String × Nat),
        p ∈ limpiarFiltrado t m ↔ p ∈ m ∧ t - p.2 ≤ umbralInactividadMs) ∧
    (∀ (st : EstadoAgregador) (t : Nat),
        (limpiarInactivos t st).2 ≠ none ↔
          ∃ p ∈ st.mapa, umbralInactividadMs < t - p.2) ∧
    umbralInactividadMs = 3000 ∧ periodoLimpiezaMs = 1000 := by
  refine ⟨?_, mem_limpiarFiltrado, ?_, rfl, rfl⟩
  · intro u hu
    have hkeys := salida_es_claves _ _ _ hout
    rw [← estadoFinal_append] at hkeys
    subst hkeys
    rcases List.mem_map.mp hu with ⟨p, hp, hpu⟩
    obtain ⟨h1, h2⟩ := (invarianteAgregador (tr ++ [e]) hbf).1 p hp
    exact ⟨p.2, hpu ▸ h1, h2⟩
  · intro st t
    show (if huboCambio t st.mapa then some ((limpiarFiltrado t st.mapa).map Prod.fst)
          else none) ≠ none ↔ _
    by_cases hc : huboCambio t st.mapa
    · simp only [hc, if_true]
      exact iff_of_true (by simp) ((huboCambio_iff t st.mapa).mp hc)
    · simp only [hc, if_false]
      refine iff_of_false (by simp) ?_
      exact fun hex => hc ((huboCambio_iff t st.mapa).mpr hex)

/-- Witness for C1: the trace where user a types at t=0, user b at t=3500
and the sweep runs at t=4000 evicts a, reports the set containing b alone,
and the most recent event of b (3500) is within the threshold of the sweep. -/
theorem C1_testigo :
    ∃ ts, ultimoEvento "b"
        ([.insert "a" 0, .insert "b" 3500] ++ [.sweep 4000]) = some ts ∧
      (estadoFinal ([.insert "a" 0, .insert "b" 3500] ++ [.sweep 4000])).ultimoSweep - ts ≤
        umbralInactividadMs :=
  (C1_invariante_presencia [.insert "a" 0, .insert "b" 3500] (.sweep 4000) ["b"]
      (by decide) (by decide)).1 "b" (by decide)

/-- C2 fails on the code: a second insert-event from a user who is already
in the map is a mere timestamp refresh (the key set ["a"] is unchanged),
yet the INSERT handler still invokes the callback — it does so
unconditionally on every event. -/
theorem C2_contraejemplo :
    ((paso ⟨[("a", 0)], 0⟩ (.insert "a" 5)).1.mapa.map Prod.fst =
        [("a", 0)].map Prod.fst) ∧
    (paso ⟨[("a", 0)], 0⟩ (.insert "a" 5)).2 = some ["a"] ∧
    (paso ⟨[("a", 0)], 0⟩ (.insert "a" 5)).2 ≠ none := by
  refine ⟨rfl, rfl, ?_⟩
  simp [paso, manejadorInsercionEscritura]

/-- C2 amended: the INSERT handler invokes the callback on every
insert-event — including a mere timestamp refresh of an already-present
key — while the sweep invokes the callback iff at least one key was
evicted. -/
theorem C2_enmendada :
    (∀ (st : EstadoAgregador) (u : String) (t : Nat),
        (paso st (.insert u t)).2 = some ((mapSet u t st.mapa).map Prod.fst)) ∧
    (∀ (st : EstadoAgregador) (t : Nat),
        (paso st (.sweep t)).2 ≠ none ↔
          ∃ p ∈ st.mapa, umbralInactividadMs < t - p.2) := by
  refine ⟨fun st u t => rfl, fun st t => ?_⟩
  show (if huboCambio t st.mapa then some ((limpiarFiltrado t st.mapa).map Prod.fst)
        else none) ≠ none ↔ _
  by_cases hc : huboCambio t st.mapa
  · simp only [hc, if_true]
    exact iff_of_true (by simp) ((huboCambio_iff t st.mapa).mp hc)
  · simp only [hc, if_false]
    exact iff_of_false (by simp) (fun hex => hc ((huboCambio_iff t st.mapa).mpr hex))

/-- C3 fails on the code: the teardown closure clears the interval and the
map, but the INSERT handler closure has no teardown guard — a synthetic
insert-event delivered directly to it after unsubscribe re-inserts the user
and does invoke the (supposedly detached) callback. -/
theorem C3_contraejemplo :
    (desuscribirEscritura ⟨[("a", 100)], 0⟩).mapa = [] ∧
    (paso (desuscribirEscritura ⟨[("a", 100)], 0⟩) (.insert "b" 200)).2 = some ["b"] ∧
    (paso (desuscribirEscritura ⟨[("a", 100)], 0⟩) (.insert "b" 200)).2 ≠ none := by
  refine ⟨rfl, rfl, ?_⟩
  simp [paso, manejadorInsercionEscritura, desuscribirEscritura]

/-- C3 amended: teardown clears the typing map (and in the source also
clears the sweep interval and removes the channel), and a synthetic
insert-event delivered directly to the torn-down handler does not throw —
the handler is a total function — but it does invoke the callback, with the
singleton presence list of the freshly re-inserted user. -/
theorem C3_enmendada :
    ∀ (st : EstadoAgregador) (u : String) (t : Nat),
      (desuscribirEscritura st).mapa = [] ∧
      paso (desuscribirEscritura st) (.insert u t) =
        (⟨[(u, t)], st.ultimoSweep⟩, some [u]) :=
  fun _ _ _ => ⟨rfl, rfl⟩

/-! ## Claims about messages -/

/-- C4: when the backend answers the newest-first query (rows sorted
non-increasing in `created_at`, as requested by the descending order of
`consultaObtenerMensajes`), `obtenerMensajes` returns exactly the locally
reversed formatted rows, which are in non-decreasing creation-time order
(oldest first). -/
theorem C4_orden_mensajes (data : List FilaMensaje) (limite : Nat)
    (hdesc : data.Pairwise (fun a b => b.created_at ≤ a.created_at)) :
    obtenerMensajes (.respuesta (some data) none) =
      (data.map formatearMensaje).reverse ∧
    (obtenerMensajes (.respuesta (some data) none)).Pairwise
      (fun a b => a.created_at ≤ b.created_at) ∧
    (consultaObtenerMensajes limite).ordenAscendente = false ∧
    (consultaObtenerMensajes limite).limite = limite := by
  refine ⟨rfl, ?_, rfl, rfl⟩
  show ((data.map formatearMensaje).reverse).Pairwise _
  rw [List.pairwise_reverse, List.pairwise_map]
  exact hdesc.imp (fun h => h)

/-- Witness for C4 on a concrete two-row newest-first response. -/
theorem C4_testigo :
    obtenerMensajes (.respuesta
        (some [⟨"2", "dos", "u", 100, none⟩, ⟨"1", "uno", "u", 50, none⟩]) none) =
      ([(⟨"2", "dos", "u", 100, none⟩ : FilaMensaje),
        ⟨"1", "uno", "u", 50, none⟩].map formatearMensaje).reverse ∧
    (obtenerMensajes (.respuesta
        (some [⟨"2", "dos", "u", 100, none⟩, ⟨"1", "uno", "u", 50, none⟩]) none)).Pairwise
      (fun a b => a.created_at ≤ b.created_at) ∧
    (consultaObtenerMensajes 50).ordenAscendente = false ∧
    (consultaObtenerMensajes 50).limite = 50 :=
  C4_orden_mensajes [⟨"2", "dos", "u", 100, none⟩, ⟨"1", "uno", "u", 50, none⟩] 50
    (by decide)

/-- C5: content that is blank after trimming makes the hook-level send fail
with the `EmptyContent` error value and perform no insert, whatever the
session and backend would have done. -/
theorem C5_contenido_vacio (user : Option UsuarioAuth) (errorInsercion : Option String)
    (contenido : String) (h : recortar contenido = "") :
    enviarMensajeHook user errorInsercion contenido =
      (⟨false, some errorContenidoVacio⟩, []) := by
  rw [enviarMensajeHook, if_pos h]

/-- Witness for C5 at the two boundary inputs of the spec. -/
theorem C5_testigo :
    enviarMensajeHook none none "" = (⟨false, some errorContenidoVacio⟩, []) ∧
    enviarMensajeHook (some ⟨"u1"⟩) none "   " =
      (⟨false, some errorContenidoVacio⟩, []) :=
  ⟨C5_contenido_vacio none none "" (by decide),
   C5_contenido_vacio (some ⟨"u1"⟩) none "   " (by decide)⟩

/-- C6: with no active session `enviarMensaje` returns the `Unauthenticated`
failure value (the function is total, so nothing escapes the component
boundary) and inserts nothing; with an active session and a successful
insert it returns success and inserts exactly the one row — the result is
computed from the insert response alone, never from the echo
insert-event. -/
theorem C6_autenticacion_envio :
    (∀ (errorInsercion : Option String) (contenido : String),
        enviarMensaje none errorInsercion contenido =
          (⟨false, some errorNoAutenticado⟩, [])) ∧
    (∀ (u : UsuarioAuth) (contenido : String),
        enviarMensaje (some u) none contenido =
          (⟨true, none⟩, [⟨contenido, u.id⟩])) :=
  ⟨fun _ _ => rfl, fun _ _ => rfl⟩

/-- C7: whenever the enrichment fetch fails — a resolved error or a thrown
one — the relay handler still delivers a message, built from the raw
payload with the placeholder author {email: "Desconocido", rol: "usuario"};
no insert-event is dropped on the failure paths. -/
theorem C7_respaldo_enriquecimiento :
    (∀ (e : String) (p : PayloadMensaje),
        manejadorInsercionMensaje (.lanzada e) p = some (mensajeFallback p)) ∧
    (∀ (d : Option FilaMensaje) (e : String) (p : PayloadMensaje),
        manejadorInsercionMensaje (.respuesta d (some e)) p =
          some (mensajeFallback p)) ∧
    (∀ p : PayloadMensaje, (mensajeFallback p).usuario = some autorDesconocido) ∧
    autorDesconocido = ⟨"Desconocido", "usuario"⟩ :=
  ⟨fun _ _ => rfl, fun d _ _ => by cases d <;> rfl, fun _ => rfl, rfl⟩

/-- C8: the subscription callback of `useChat` ignores a pushed message
whose id is already in the list, so delivering the same payload twice
leaves the list as after the first delivery, holding the message exactly
once. -/
theorem C8_deduplicacion (prev : List Mensaje) (nuevo : Mensaje) :
    ((∃ m ∈ prev, m.id = nuevo.id) → agregarMensaje prev nuevo = prev) ∧
    agregarMensaje (agregarMensaje prev nuevo) nuevo = agregarMensaje prev nuevo ∧
    (prev.countP (fun m => m.id == nuevo.id) = 0 →
      (agregarMensaje (agregarMensaje prev nuevo) nuevo).countP
          (fun m => m.id == nuevo.id) = 1) := by
  have hany : ∀ l : List Mensaje,
      l.any (fun m => m.id == nuevo.id) = true ↔ ∃ m ∈ l, m.id = nuevo.id := by
    intro l
    simp [List.any_eq_true]
  by_cases hc : prev.any (fun m => m.id == nuevo.id)
  · have h1 : agregarMensaje prev nuevo = prev := by rw [agregarMensaje, if_pos hc]
    refine ⟨fun _ => h1, by rw [h1]; exact h1, fun h0 => ?_⟩
    exfalso
    rcases (hany prev).mp hc with ⟨m, hm, hid⟩
    have := List.countP_eq_zero.mp h0 m hm
    simp [hid] at this
  · have h1 : agregarMensaje prev nuevo = prev ++ [nuevo] := by
      rw [agregarMensaje, if_neg hc]
    have h2 : agregarMensaje (prev ++ [nuevo]) nuevo = prev ++ [nuevo] := by
      rw [agregarMensaje, if_pos ((hany _).mpr ⟨nuevo, by simp, rfl⟩)]
    refine ⟨fun hex => absurd ((hany prev).mpr hex) hc, by rw [h1, h2], fun h0 => ?_⟩
    rw [h1, h2, List.countP_append, h0]
    simp [List.countP_cons]

/-- Witness for C8: delivering the message with id "1" twice to an empty
list keeps it once, and pushing an id already present is a no-op. -/
theorem C8_testigo :
    agregarMensaje (agregarMensaje [] (⟨"1", "hola", "u", 0, none⟩ : Mensaje))
        ⟨"1", "hola", "u", 0, none⟩ =
      agregarMensaje [] (⟨"1", "hola", "u", 0, none⟩ : Mensaje) ∧
    (agregarMensaje (agregarMensaje [] (⟨"1", "hola", "u", 0, none⟩ : Mensaje))
        ⟨"1", "hola", "u", 0, none⟩).countP
        (fun m => m.id == (⟨"1", "hola", "u", 0, none⟩ : Mensaje).id) = 1 ∧
    agregarMensaje [(⟨"1", "hola", "u", 0, none⟩ : Mensaje)]
        ⟨"1", "otro", "u", 5, none⟩ = [⟨"1", "hola", "u", 0, none⟩] :=
  ⟨(C8_deduplicacion [] ⟨"1", "hola", "u", 0, none⟩).2.1,
   (C8_deduplicacion [] ⟨"1", "hola", "u", 0, none⟩).2.2 (by decide),
   (C8_deduplicacion [⟨"1", "hola", "u", 0, none⟩] ⟨"1", "otro", "u", 5, none⟩).1
     (by decide)⟩

/-- C9: whatever the limit was, when the recent-messages query fails — the
backend resolves with an error (which `obtenerMensajes` throws and then
catches) or the call rejects outright — `obtenerMensajes` returns the empty
list instead of raising to the caller. -/
theorem C9_fallo_consulta :
    (∀ e : String, obtenerMensajes (.lanzada e) = []) ∧
    (∀ (d : Option (List FilaMensaje)) (e : String),
        obtenerMensajes (.respuesta d (some e)) = []) :=
  ⟨fun _ => rfl, fun d _ => by cases d <;> rfl⟩

/-- C10: emitting the typing signal with no active session performs no
insert and returns normally — its return type carries no error component,
unlike `enviarMensaje`, which returns the explicit `Unauthenticated`
failure in the same situation. -/
theorem C10_escritura_silenciosa :
    (∀ (escribiendo : Bool) (errorInsercion : Option String),
        enviarEventoEscritura none escribiendo errorInsercion = []) ∧
    (∀ (errorInsercion : Option String) (contenido : String),
        (enviarMensaje none errorInsercion contenido).1 =
          ⟨false, some errorNoAutenticado⟩) :=
  ⟨fun _ _ => rfl, fun _ _ => rfl⟩
